import Mathlib

/-!
Verification development for the transactional game-engine core
(entity store, SQLite repository, transactions, executor, locks,
saga orchestrator, raid service, banner manager).

Each component is shallowly embedded from its Python source module:
dictionaries become association lists or functional maps, raised
exceptions become `Except` errors, and wall-clock time and lock waiting
times become explicit parameters.  Theorems at the end of the file
settle the specification claims against these embeddings.
-/

namespace Engine

/-! ## Association-list helpers (Python `dict` keyed by entity id) -/

/-- Decidable equality for `Except`, so that concrete runs of the
fallible operations can be checked by `decide`. -/
instance {ε α : Type} [DecidableEq ε] [DecidableEq α] :
    DecidableEq (Except ε α) :=
  fun x y =>
    match x, y with
    | Except.ok a, Except.ok b =>
        if h : a = b then isTrue (by rw [h]) else isFalse (by simp [h])
    | Except.error a, Except.error b =>
        if h : a = b then isTrue (by rw [h]) else isFalse (by simp [h])
    | Except.ok _, Except.error _ => isFalse (by simp)
    | Except.error _, Except.ok _ => isFalse (by simp)

/-- Lookup of a key in an association list, mirroring `dict.get`. -/
def alookup {α : Type} : List (String × α) → String → Option α
  | [], _ => none
  | (k, v) :: rest, key => if k = key then some v else alookup rest key

/-- Update or insert a key, mirroring `dict[key] = value`. -/
def aset {α : Type} (l : List (String × α)) (key : String) (v : α) :
    List (String × α) :=
  (key, v) :: l.filter (fun p => !(p.1 == key))

/-- Remove a key, mirroring `dict.pop(key, None)`. -/
def aremove {α : Type} (l : List (String × α)) (key : String) :
    List (String × α) :=
  l.filter (fun p => !(p.1 == key))

/-- Insert into a Python `set` represented as a duplicate-free list. -/
def sinsert (l : List String) (x : String) : List String :=
  if x ∈ l then l else x :: l

/-! ## SQLite repository (`engine/adapters/sqlite_repository.py`)

An entity record is a Python dict; the engine-reserved keys that the
repository and the referral helpers inspect are modelled as explicit
optional fields (`none` means the key is absent from the dict). -/

/-- In-memory entity record as handled by `SQLiteRepository`
(`_type`, `_version`, `referrer_id`, `referrals`). -/
structure PRec where
  etype : Option String
  version : Option Nat
  referrerId : Option String
  referrals : Option (List String)
  deriving DecidableEq, Repr

/-- A row of the `entities` table: `entity_type`, `data` (JSON blob),
`version` column. -/
structure Row where
  entityType : String
  data : PRec
  version : Nat
  deriving DecidableEq, Repr

/-- The `entities` table keyed by `entity_id`. -/
abbrev DB := List (String × Row)

namespace SQLiteRepository

/-- `SQLiteRepository.save`: optimistic-locking upsert.  Returns the
caller record after the write-back of `_version` (the Python code
mutates `entity_data` in place) together with the table afterwards;
an error leaves the table unchanged, as the Python code raises before
issuing the UPDATE. -/
def save (db : DB) (entityId : String) (entityData : PRec) :
    Except String PRec × DB :=
  let entityType := entityData.etype.getD "unknown"
  let currentVersion := entityData.version.getD 1
  match alookup db entityId with
  | none =>
      (Except.ok entityData,
       aset db entityId ⟨entityType, entityData, currentVersion⟩)
  | some existing =>
      if existing.version ≠ currentVersion then
        (Except.error ("Optimistic lock failed for " ++ entityId ++
          ": expected version " ++ toString currentVersion ++
          ", but found " ++ toString existing.version), db)
      else
        let newVersion := currentVersion + 1
        let entityData2 := { entityData with version := some newVersion }
        (Except.ok entityData2,
         aset db entityId ⟨entityType, entityData2, newVersion⟩)

/-- `SQLiteRepository.load`: returns the stored record with the
`version` column written into its `_version` field. -/
def load (db : DB) (entityId : String) : Option PRec :=
  (alookup db entityId).map (fun row => { row.data with version := some row.version })

/-- Python truthiness of `referred.get("referrer_id")`: an absent key,
`None`, and the empty string are all falsy. -/
def hasTruthyReferrer (r : PRec) : Bool :=
  match r.referrerId with
  | some s => !(s == "")
  | none => false

/-- `SQLiteRepository.add_referral`: link two players.  Returns the
flag the Python method would return together with the table afterwards;
an error models the exception propagating to the caller. -/
def add_referral (db : DB) (referrerId referredId : String) :
    Except String Bool × DB :=
  match load db referrerId with
  | none => (Except.error ("Referrer " ++ referrerId ++ " not found"), db)
  | some referrer =>
  match load db referredId with
  | none => (Except.error ("Referred player " ++ referredId ++ " not found"), db)
  | some referred =>
  if hasTruthyReferrer referred then
    (Except.ok false, db)
  else
    let referred2 := { referred with
      referrerId := some referrerId,
      version := some (referred.version.getD 1 + 1) }
    match save db referredId referred2 with
    | (Except.error e, db2) => (Except.error e, db2)
    | (Except.ok _, db2) =>
      let refs := referrer.referrals.getD []
      if referredId ∈ refs then (Except.ok true, db2)
      else
        let referrer2 := { referrer with
          referrals := some (refs ++ [referredId]),
          version := some (referrer.version.getD 1 + 1) }
        match save db2 referrerId referrer2 with
        | (Except.error e, db3) => (Except.error e, db3)
        | (Except.ok _, db3) => (Except.ok true, db3)

end SQLiteRepository

/-! ## Entity store and transactions
(`engine/core/state.py`, `engine/core/persistent_state.py`,
`engine/core/transaction.py`)

Entity dicts here are modelled with their engine-managed `_version`
key explicit (`none` when the key is absent) and the remaining fields
as an opaque field map. -/

/-- An entity dict as stored in `GameState._entities`. -/
structure Ent where
  version : Option Nat
  fields : List (String × Int)
  deriving DecidableEq, Repr

/-- The in-memory entity map of a `GameState`. -/
abbrev EMap := List (String × Ent)

/-- The repository contents seen by `PersistentGameState` (the
reference implementation stores each record with a version column;
for the store model only the record as returned by `load` matters). -/
abbrev Rdb := List (String × Ent)

/-- One repository round-trip, recorded so that cache policies
(which calls reach the repository) can be stated. -/
inductive RepoCall where
  | load (id : String)
  | loadBulk (ids : List String)
  | save (id : String) (e : Ent)
  deriving DecidableEq, Repr

/-- `SQLiteRepository.load_bulk` seen from the store: the subset of
requested ids that exist, one row each, in table order. -/
def repoLoadBulk (repo : Rdb) (ids : List String) : List (String × Ent) :=
  repo.filter (fun p => p.1 ∈ ids)

/-- `PersistentGameState`: in-memory working set (`_entities`), the
`_loaded_entities` bookkeeping set, and the `auto_flush` flag. -/
structure PersistentGameState where
  entities : EMap
  loaded : List String
  autoFlush : Bool
  deriving DecidableEq, Repr

namespace PersistentGameState

/-- `PersistentGameState.get_entity`: memory first, then the
repository, but only when the id was never marked loaded.  Returns
the result, the store afterwards, and the repository calls made. -/
def get_entity (repo : Rdb) (st : PersistentGameState) (entityId : String) :
    Option Ent × PersistentGameState × List RepoCall :=
  match alookup st.entities entityId with
  | some entity => (some entity, st, [])
  | none =>
    if entityId ∉ st.loaded then
      match alookup repo entityId with
      | some entity =>
          (some entity,
           { st with entities := aset st.entities entityId entity,
                     loaded := sinsert st.loaded entityId },
           [RepoCall.load entityId])
      | none => (none, st, [RepoCall.load entityId])
    else (none, st, [])

/-- First pass of `get_entities_bulk`: split the requested ids into
cache hits and ids never tried before. -/
def bulkFirstPass (st : PersistentGameState) :
    List String → List (String × Ent) × List String
  | [] => ([], [])
  | entityId :: rest =>
    let (found, missing) := bulkFirstPass st rest
    match alookup st.entities entityId with
    | some entity => ((entityId, entity) :: found, missing)
    | none =>
      if entityId ∉ st.loaded then (found, entityId :: missing)
      else (found, missing)

/-- Cache every row returned by the bulk load
(`super().set_entity` + `_loaded_entities.add`). -/
def cacheLoaded (st : PersistentGameState) :
    List (String × Ent) → PersistentGameState
  | [] => st
  | (entityId, entity) :: rest =>
      cacheLoaded
        { st with entities := aset st.entities entityId entity,
                  loaded := sinsert st.loaded entityId } rest

/-- `PersistentGameState.get_entities_bulk`: one repository round-trip
for the ids not yet resolved.  Returns the found entities, the store
afterwards, and the repository calls made. -/
def get_entities_bulk (repo : Rdb) (st : PersistentGameState)
    (entityIds : List String) :
    List (String × Ent) × PersistentGameState × List RepoCall :=
  let (found, missing) := bulkFirstPass st entityIds
  if missing.isEmpty then (found, st, [])
  else
    let loadedRows := repoLoadBulk repo missing
    (found ++ loadedRows, cacheLoaded st loadedRows,
     [RepoCall.loadBulk missing])

/-- `PersistentGameState.set_entity`: default the `_version` key to 1,
update memory and the loaded set, and save through to the repository
when `auto_flush` is on (the reference repository save is modelled in
the SQLite section; here the recorded `RepoCall.save` captures that a
write was issued). -/
def set_entity (repo : Rdb) (st : PersistentGameState) (entityId : String)
    (data : Ent) : PersistentGameState × Rdb × List RepoCall :=
  let data2 := if data.version = none then { data with version := some 1 } else data
  let st2 := { st with entities := aset st.entities entityId data2,
                       loaded := sinsert st.loaded entityId }
  if st.autoFlush then (st2, aset repo entityId data2, [RepoCall.save entityId data2])
  else (st2, repo, [])

end PersistentGameState

/-- `Transaction`: a deep copy of the entity map plus the two
finalisation flags. -/
structure Transaction where
  snapshot : EMap
  committed : Bool
  rolledBack : Bool
  deriving DecidableEq, Repr

namespace Transaction

/-- `Transaction.__init__`: snapshot the entity map of the state. -/
def begin (st : PersistentGameState) : Transaction :=
  ⟨st.entities, false, false⟩

/-- A write through the working store returned by `get_work_state`:
the temporary `GameState` shares the snapshot, so `set_entity` on it
updates the snapshot (plain `GameState.set_entity`, no repository
interaction and no `_version` defaulting). -/
def workSetEntity (tx : Transaction) (entityId : String) (data : Ent) :
    Transaction :=
  { tx with snapshot := aset tx.snapshot entityId data }

/-- A read through the working store (`GameState.get_entity` on the
temporary state). -/
def workGetEntity (tx : Transaction) (entityId : String) : Option Ent :=
  alookup tx.snapshot entityId

/-- `Transaction.commit`: replace the entity map of the original state
with the snapshot.  The method performs no repository operation, so
the repository is threaded through unchanged and the recorded call
list is empty. -/
def commit (repo : Rdb) (st : PersistentGameState) (tx : Transaction) :
    Except String (Rdb × PersistentGameState × Transaction × List RepoCall) :=
  if tx.committed then Except.error "Transaction already committed"
  else if tx.rolledBack then Except.error "Transaction already rolled back"
  else Except.ok (repo, { st with entities := tx.snapshot },
                  { tx with committed := true }, [])

/-- `Transaction.rollback`: discard the snapshot; the state is
untouched. -/
def rollback (tx : Transaction) : Except String Transaction :=
  if tx.committed then Except.error "Transaction already committed"
  else if tx.rolledBack then Except.error "Transaction already rolled back"
  else Except.ok { tx with snapshot := [], rolledBack := true }

end Transaction

/-! ## Transactional executor (`engine/core/transaction.py`,
`TransactionalExecutor.execute`; the async variant in
`engine/core/async_executor.py` has the same body inside the lock
scope). -/

/-- A Python exception escaping `command.execute`. -/
inductive PyErr where
  | valueError (msg : String)
  | keyError (msg : String)
  | otherError (name msg : String)
  deriving DecidableEq, Repr

/-- `CommandResult` from `engine/core/command.py`: a dataclass with
exactly the fields `success`, `data`, `error`. -/
structure CommandResult where
  success : Bool
  data : Option (List (String × Int))
  error : Option String
  deriving DecidableEq, Repr

/-- A command body: `execute(work_state)` reads and writes the working
store and either returns result data or raises.  The returned map is
the working store afterwards (mutations before a raise are kept on the
snapshot, which the executor then discards). -/
def Command : Type :=
  EMap → Except PyErr (List (String × Int)) × EMap

/-- The executor error translation: `ValueError`, `KeyError`, and the
catch-all branch of `TransactionalExecutor.execute`. -/
def errorText : PyErr → String
  | .valueError m => "Validation error: " ++ m
  | .keyError m => "Entity not found: " ++ m
  | .otherError n m => "Unexpected error: " ++ n ++ ": " ++ m

/-- `TransactionalExecutor.execute`: run the command on the snapshot;
commit on success, roll back (state untouched) on any exception,
returning a typed `CommandResult` rather than propagating. -/
def TransactionalExecutor.execute (cmd : Command) (st : EMap) :
    CommandResult × EMap :=
  let run := cmd st
  match run.1 with
  | Except.ok d => (⟨true, some d, none⟩, run.2)
  | Except.error e => (⟨false, none, some (errorText e)⟩, st)

/-! ## Entity lock manager (`engine/core/locks.py`)

The time `asyncio.wait_for(lock.acquire(), timeout=timeout)` needs for
each entity id is an explicit environment `wait : String → Nat`;
an acquisition succeeds exactly when that time fits the timeout passed
to `wait_for`.  The second component of the result is the set of locks
of this call still held when `acquire` returns or raises. -/

/-- The exception leaving `EntityLockManager.acquire`:
the `TimeoutError` raised by the timeout handler, or the
`RuntimeError` that `asyncio.Lock.release` raises when the generic
`except Exception` handler releases an already-released lock. -/
inductive LockErr where
  | timeoutError
  | runtimeError
  deriving DecidableEq, Repr

namespace EntityLockManager

/-- Python `sorted` on strings: stable sort by the lexicographic
order on the character sequences (code-point comparison, the same
order Python uses). -/
def sortIds (ids : List String) : List String :=
  List.insertionSort (fun a b : String => a.data ≤ b.data) ids

instance : IsTotal String (fun a b : String => a.data ≤ b.data) :=
  ⟨fun a b => le_total a.data b.data⟩

instance : IsTrans String (fun a b : String => a.data ≤ b.data) :=
  ⟨fun _ _ _ h1 h2 => le_trans h1 h2⟩

/-- The acquisition loop of `EntityLockManager.acquire` over the
sorted ids, carrying the `acquired` list.  On a timeout the inner
handler releases every acquired lock and raises `TimeoutError`; the
outer `except Exception` handler then releases the same (now already
released) locks again, which raises `RuntimeError` on the first of
them — so the surfaced error is `TimeoutError` only when nothing had
been acquired yet.  Either way no lock of this call stays held. -/
def acquireGo (wait : String → Nat) (timeout : Nat) :
    List String → List String → Except LockErr (List String) × List String
  | [], acquired => (Except.ok acquired, acquired)
  | entityId :: rest, acquired =>
    if wait entityId ≤ timeout then
      acquireGo wait timeout rest (acquired ++ [entityId])
    else
      match acquired with
      | [] => (Except.error LockErr.timeoutError, [])
      | _ :: _ => (Except.error LockErr.runtimeError, [])

/-- `EntityLockManager.acquire(entity_ids, timeout)`. -/
def acquire (wait : String → Nat) (entityIds : List String) (timeout : Nat) :
    Except LockErr (List String) × List String :=
  acquireGo wait timeout (sortIds entityIds) []

/-- Modelled from the spec (§4.3 `LockManager.acquire`), for
comparison with the code: each id is acquired with the *remaining*
timeout budget of the call, and a timeout fails with a lock-timeout
error after releasing everything acquired in this call. -/
def acquireSpecGo (wait : String → Nat) :
    List String → List String → Nat → Except LockErr (List String) × List String
  | [], acquired, _ => (Except.ok acquired, acquired)
  | entityId :: rest, acquired, budget =>
    if wait entityId ≤ budget then
      acquireSpecGo wait rest (acquired ++ [entityId]) (budget - wait entityId)
    else (Except.error LockErr.timeoutError, [])

/-- Modelled from the spec: `acquire` with a shrinking budget. -/
def acquireSpec (wait : String → Nat) (entityIds : List String) (timeout : Nat) :
    Except LockErr (List String) × List String :=
  acquireSpecGo wait (sortIds entityIds) [] timeout

end EntityLockManager

/-! ## Saga orchestrator (`engine/core/saga.py`)

The saga is generic in the state it acts on; actions and compensations
may mutate the state before raising, so they return the state in both
outcomes. -/

/-- `SagaStatus`. -/
inductive SagaStatus where
  | pending
  | executing
  | completed
  | compensating
  | failed
  deriving DecidableEq, Repr

/-- A `SagaStep`: name, action, optional compensation. -/
structure SagaStep (σ : Type) where
  name : String
  action : σ → Except String Int × σ
  compensation : Option (σ → Except String Unit × σ)

/-- `SagaExecutionContext`. -/
structure SagaExecutionContext where
  sagaId : String
  status : SagaStatus
  completedSteps : List String
  failedStep : Option String
  errorMessage : Option String
  results : List (String × Int)
  deriving DecidableEq, Repr

/-- The result record `Saga.execute` intends to build
(`success`, `message`, and the metadata entries the claims mention). -/
structure SagaOutcome where
  success : Bool
  message : String
  compensated : Option Bool
  criticalError : Bool
  deriving DecidableEq, Repr

/-- The field list of the `CommandResult` dataclass
(`engine/core/command.py`). -/
def commandResultFields : List String := ["success", "data", "error"]

/-- Calling the `CommandResult` dataclass constructor with a set of
keyword arguments: Python raises `TypeError` on the first keyword
that is not a field of the dataclass. -/
def callCommandResultKw (kwargs : List String) : Except String Unit :=
  match kwargs.find? (fun k => !(commandResultFields.contains k)) with
  | some k => Except.error
      ("TypeError: unexpected keyword argument " ++ k)
  | none => Except.ok ()

namespace Saga

/-- The loop of `Saga._compensate` over the executed steps in reverse
order: steps without a compensation are skipped, a raising
compensation sets the failure flag and the loop continues. -/
def compensateGo {σ : Type} :
    List (SagaStep σ) → σ → Bool → σ × Bool
  | [], st, failedFlag => (st, failedFlag)
  | step :: rest, st, failedFlag =>
    match step.compensation with
    | none => compensateGo rest st failedFlag
    | some comp =>
      match comp st with
      | (Except.ok _, st2) => compensateGo rest st2 failedFlag
      | (Except.error _, st2) => compensateGo rest st2 true

/-- `Saga._compensate`: compensate the executed steps in reverse
order; the Bool is `True` when every compensation succeeded. -/
def compensate {σ : Type} (executed : List (SagaStep σ)) (st : σ) :
    σ × Bool :=
  let (st2, failedFlag) := compensateGo executed.reverse st false
  (st2, !failedFlag)

/-- The main loop of `Saga.execute`.  Each result record is built by a
`CommandResult(success=..., message=..., metadata=...)` call; the
intended payload is in the `Except.ok` branch, which is unreachable
because the keyword set is rejected by the dataclass constructor. -/
def executeGo {σ : Type} (sagaId : String) :
    List (SagaStep σ) → σ → List (SagaStep σ) → SagaExecutionContext →
    Except String SagaOutcome × σ × SagaExecutionContext
  | [], st, _, ctx =>
    let ctx2 := { ctx with status := SagaStatus.completed }
    (match callCommandResultKw ["success", "message", "metadata"] with
     | Except.error e => Except.error e
     | Except.ok _ => Except.ok
         ⟨true, "Saga " ++ sagaId ++ " completed successfully", none, false⟩,
     st, ctx2)
  | step :: rest, st, executed, ctx =>
    match step.action st with
    | (Except.ok v, st2) =>
        executeGo sagaId rest st2 (executed ++ [step])
          { ctx with completedSteps := ctx.completedSteps ++ [step.name],
                     results := ctx.results ++ [(step.name, v)] }
    | (Except.error e, st2) =>
        let ctx2 := { ctx with status := SagaStatus.compensating,
                               failedStep := some step.name,
                               errorMessage := some e }
        let comp := compensate executed st2
        let ctx3 := { ctx2 with status := SagaStatus.failed }
        (match callCommandResultKw ["success", "message", "metadata"] with
         | Except.error te => Except.error te
         | Except.ok _ =>
           if comp.2 then Except.ok
             ⟨false, "Saga " ++ sagaId ++ " failed at step " ++ step.name ++
               ": " ++ e ++ ". Compensation completed.", some true, false⟩
           else Except.ok
             ⟨false, "Saga " ++ sagaId ++ " failed at step " ++ step.name ++
               ": " ++ e ++ ". CRITICAL: Compensation also failed!",
              some false, true⟩,
         comp.1, ctx3)

/-- `Saga.execute`: status moves to executing, then the step loop
runs.  The first component is what the caller observes: the
`CommandResult` the saga tries to return, or the exception leaving
`execute`. -/
def execute {σ : Type} (sagaId : String) (steps : List (SagaStep σ))
    (st : σ) : Except String SagaOutcome × σ × SagaExecutionContext :=
  executeGo sagaId steps st []
    ⟨sagaId, SagaStatus.executing, [], none, none, []⟩

end Saga

/-! ## Raid service (`engine/services/raid_service.py`)

Wall-clock time is an explicit `now : Int` parameter; timestamps are
integers.  The optimistic-locking retry loop re-runs only on a version
conflict between the raid cache and the state, or on an exception;
in the sequential model the cache and the state are written together
by `_save_raid`, so the first iteration always returns and
`retry_count` is 0 (the float `percentage` field of the Python
`AttackResult` is omitted). -/

/-- `RaidStatus`. -/
inductive RaidStatus where
  | scheduled
  | active
  | completed
  | expired
  | cancelled
  deriving DecidableEq, Repr

/-- `RaidStatus.value` as interpolated into error messages. -/
def RaidStatus.value : RaidStatus → String
  | .scheduled => "scheduled"
  | .active => "active"
  | .completed => "completed"
  | .expired => "expired"
  | .cancelled => "cancelled"

/-- A participant entry of the raid `participants` map (the timestamp
fields `first_attack` / `last_attack` are bookkeeping strings the
claims do not touch and are omitted). -/
structure Participant where
  totalDamage : Int
  attackCount : Nat
  deriving DecidableEq, Repr

/-- `RaidEntity` (the fields the attack path reads and writes). -/
structure RaidEntity where
  maxHp : Int
  currentHp : Int
  status : RaidStatus
  expiresAt : Option Int
  version : Nat
  participants : List (String × Participant)
  totalDamageDealt : Int
  deriving DecidableEq, Repr

/-- `AttackResult` (dataclass defaults: zeros, flags false,
no error message). -/
structure AttackResult where
  success : Bool
  damageDealt : Int
  currentHp : Int
  maxHp : Int
  raidDefeated : Bool
  rank : Nat
  totalContribution : Int
  retryCount : Nat
  errorMessage : Option String
  deriving DecidableEq, Repr

/-- A failure `AttackResult`: dataclass defaults plus the error
message. -/
def AttackResult.failure (msg : String) : AttackResult :=
  ⟨false, 0, 0, 0, false, 0, 0, 0, some msg⟩

/-- `raid.expires_at and datetime.now() > raid.expires_at`: a missing
expiry timestamp is falsy, otherwise compare against the clock. -/
def pastExpiry (now : Int) : Option Int → Bool
  | some t => decide (now > t)
  | none => false

namespace RaidService

/-- `RaidService._calculate_rank`: one plus the number of other
participants with strictly more damage. -/
def calculateRank (raid : RaidEntity) (playerId : String) : Nat :=
  match alookup raid.participants playerId with
  | none => raid.participants.length + 1
  | some p =>
      1 + (raid.participants.filter
        (fun q => !(q.1 == playerId) && p.totalDamage < q.2.totalDamage)).length

/-- `RaidService.attack_raid` on a raid loaded from the store: status
gate, expiry gate, then the damage application of the first retry
iteration (see the section comment).  Returns the result and the raid
record as saved (or left untouched on the not-active path). -/
def attack_raid (now : Int) (raid : RaidEntity) (playerId : String)
    (damage : Int) : AttackResult × RaidEntity :=
  if raid.status ≠ RaidStatus.active then
    (AttackResult.failure
      ("Raid is not active (status: " ++ raid.status.value ++ ")"), raid)
  else if pastExpiry now raid.expiresAt then
    (AttackResult.failure "Raid has expired",
     { raid with status := RaidStatus.expired })
  else
    let actualDamage := min damage raid.currentHp
    let currentHp2 := raid.currentHp - actualDamage
    let participant0 := (alookup raid.participants playerId).getD ⟨0, 0⟩
    let participant2 : Participant :=
      ⟨participant0.totalDamage + actualDamage, participant0.attackCount + 1⟩
    let raidDefeated := decide (currentHp2 ≤ 0)
    let raid2 : RaidEntity :=
      { raid with
        currentHp := currentHp2,
        totalDamageDealt := raid.totalDamageDealt + actualDamage,
        version := raid.version + 1,
        participants := aset raid.participants playerId participant2,
        status := if raidDefeated then RaidStatus.completed else raid.status }
    (⟨true, actualDamage, currentHp2, raid.maxHp, raidDefeated,
      calculateRank raid2 playerId, participant2.totalDamage, 0, none⟩,
     raid2)

end RaidService

/-! ## Banner manager (`engine/services/banner_manager.py`)

Banners live in a Python dict modelled as a functional map; the
lifecycle operations below are the state effects of the manager
methods (a raised `ValueError` leaves exactly the mutations made
before the raise, which for every method here is none).
`create_flash_banner` registers the banner synchronously and schedules
its activation and expiration; those scheduled calls arrive as
separate `activate` / `expire` operations of the sequence. -/

/-- `BannerStatus`. -/
inductive BannerStatus where
  | scheduled
  | active
  | expired
  | cancelled
  deriving DecidableEq, Repr

/-- The banner state tracked per id (config fields the lifecycle never
reads are dropped to the pull statistics and the pool). -/
structure Banner where
  status : BannerStatus
  cardPool : List String
  totalPulls : Nat
  uniquePullers : List String
  deriving DecidableEq, Repr

/-- `BannerManager`: the banner registry and the two id registers. -/
structure BannerManager where
  banners : String → Option Banner
  activeBannerId : Option String
  defaultBannerId : Option String

/-- Python truthiness of an optional banner-id string
(`if self._active_banner_id and ...`): `None` and the empty string
are falsy. -/
def isTruthyId : Option String → Bool
  | none => false
  | some s => !(s == "")

/-- Functional update of the banner registry. -/
def bset (m : String → Option Banner) (bannerId : String) (b : Banner) :
    String → Option Banner :=
  fun j => if j = bannerId then some b else m j

namespace BannerManager

/-- The fresh manager (`BannerManager.__init__`). -/
def init : BannerManager := ⟨fun _ => none, none, none⟩

/-- `create_banner`: register as scheduled; an existing id or an empty
pool raises, leaving the manager unchanged. -/
def create_banner (m : BannerManager) (bannerId : String)
    (cardPool : List String) : BannerManager :=
  if (m.banners bannerId).isSome then m
  else if cardPool.isEmpty then m
  else { m with banners := bset m.banners bannerId ⟨BannerStatus.scheduled, cardPool, 0, []⟩ }

/-- `activate_banner`: deactivate the tracked active banner (guarded
by the truthiness of `_active_banner_id`), then mark the banner active
and track it.  Unknown or expired ids raise before any mutation. -/
def activate_banner (m : BannerManager) (bannerId : String) : BannerManager :=
  match m.banners bannerId with
  | none => m
  | some banner =>
    if banner.status = BannerStatus.expired then m
    else
      let banners1 :=
        match m.activeBannerId with
        | some oldId =>
          if isTruthyId (some oldId) && !(oldId == bannerId) then
            match m.banners oldId with
            | some oldBanner =>
                if oldBanner.status = BannerStatus.active then
                  bset m.banners oldId { oldBanner with status := BannerStatus.scheduled }
                else m.banners
            | none => m.banners
          else m.banners
        | none => m.banners
      { banners := bset banners1 bannerId { banner with status := BannerStatus.active },
        activeBannerId := some bannerId,
        defaultBannerId := m.defaultBannerId }

/-- `expire_banner`: mark expired; when the expired banner was the
tracked active one, fall back to the configured default (reactivating
it) or to no active banner. -/
def expire_banner (m : BannerManager) (bannerId : String) : BannerManager :=
  match m.banners bannerId with
  | none => m
  | some banner =>
    let banners1 := bset m.banners bannerId { banner with status := BannerStatus.expired }
    if m.activeBannerId = some bannerId then
      if isTruthyId m.defaultBannerId && !(m.defaultBannerId == some bannerId) then
        let banners2 :=
          match m.defaultBannerId with
          | some defaultId =>
            match banners1 defaultId with
            | some defaultBanner =>
                bset banners1 defaultId { defaultBanner with status := BannerStatus.active }
            | none => banners1
          | none => banners1
        { banners := banners2,
          activeBannerId := m.defaultBannerId,
          defaultBannerId := m.defaultBannerId }
      else
        { banners := banners1, activeBannerId := none,
          defaultBannerId := m.defaultBannerId }
    else { m with banners := banners1 }

/-- `set_default_banner`: record the default id, then activate it when
no banner is tracked as active (`is None` check, not truthiness). -/
def set_default_banner (m : BannerManager) (bannerId : String) : BannerManager :=
  match m.banners bannerId with
  | none => m
  | some _ =>
    let m2 := { m with defaultBannerId := some bannerId }
    if m2.activeBannerId = none then activate_banner m2 bannerId else m2

/-- `track_pull`: statistics only; unknown ids are ignored. -/
def track_pull (m : BannerManager) (bannerId playerId : String)
    (pullCount : Nat) : BannerManager :=
  match m.banners bannerId with
  | none => m
  | some banner =>
      let banner2 := { banner with
        totalPulls := banner.totalPulls + pullCount,
        uniquePullers := sinsert banner.uniquePullers playerId }
      { m with banners := bset m.banners bannerId banner2 }

end BannerManager

/-- The manager operations of the claim. -/
inductive BannerOp where
  | create (bannerId : String) (cardPool : List String)
  | createFlash (bannerId : String) (cardPool : List String)
  | activate (bannerId : String)
  | expire (bannerId : String)
  | setDefault (bannerId : String)
  | trackPull (bannerId playerId : String) (n : Nat)
  deriving DecidableEq, Repr

/-- The banner id an operation addresses. -/
def BannerOp.bannerId : BannerOp → String
  | .create i _ => i
  | .createFlash i _ => i
  | .activate i => i
  | .expire i => i
  | .setDefault i => i
  | .trackPull i _ _ => i

/-- Apply one operation (`create_flash_banner` registers the banner
via `create_banner`; its scheduled activation and expiration are the
separate `activate` / `expire` operations). -/
def BannerManager.applyOp (m : BannerManager) : BannerOp → BannerManager
  | .create i pool => m.create_banner i pool
  | .createFlash i pool => m.create_banner i pool
  | .activate i => m.activate_banner i
  | .expire i => m.expire_banner i
  | .setDefault i => m.set_default_banner i
  | .trackPull i p n => m.track_pull i p n

/-- Run a sequence of operations from the fresh manager. -/
def BannerManager.runOps (ops : List BannerOp) : BannerManager :=
  ops.foldl BannerManager.applyOp BannerManager.init

/-- The claimed invariant: at most one registered banner has status
active. -/
def AtMostOneActive (m : BannerManager) : Prop :=
  ∀ i j bi bj, m.banners i = some bi → m.banners j = some bj →
    bi.status = BannerStatus.active → bj.status = BannerStatus.active → i = j

/-- The inductive strengthening used to prove the invariant: every
active banner is the one tracked by `_active_banner_id`, and neither
register holds the (Python-falsy) empty-string id. -/
def GoodMgr (m : BannerManager) : Prop :=
  (∀ i b, m.banners i = some b → b.status = BannerStatus.active →
    m.activeBannerId = some i) ∧
  (∀ s, m.activeBannerId = some s → s ≠ "") ∧
  (∀ s, m.defaultBannerId = some s → s ≠ "")

/-! ## Concrete inputs used by the witness and counterexample
theorems -/

/-- A stored player record at version 4 (for the repository save
witness). -/
def rowV4 : Row := ⟨"player", ⟨some "player", some 4, none, none⟩, 4⟩

/-- A table holding `p1` at version 4. -/
def dbV4 : DB := [("p1", rowV4)]

/-- A caller record carrying the matching `_version` 4. -/
def recV4 : PRec := ⟨some "player", some 4, none, none⟩

/-- A caller record carrying a stale `_version` 9. -/
def recV9 : PRec := ⟨some "player", some 9, none, none⟩

/-- Two freshly inserted players at stored version 1; `p2` has no
referrer (the add_referral failing input). -/
def dbReferral : DB :=
  [("p1", ⟨"player", ⟨some "player", some 1, none, none⟩, 1⟩),
   ("p2", ⟨"player", ⟨some "player", some 1, none, none⟩, 1⟩)]

/-- A fresh write-through persistent store. -/
def stFresh : PersistentGameState := ⟨[], [], true⟩

/-- A store whose cache already holds `x` (resolved as present). -/
def stCached : PersistentGameState := ⟨[("x", ⟨some 1, [("gold", 100)]⟩)], ["x"], true⟩

/-- A repository holding `x` (for the lazy-load witness). -/
def repoX : Rdb := [("x", ⟨some 1, [("gold", 100)]⟩)]

/-- The entity written through the transaction in the commit
counterexample. -/
def entGold : Ent := ⟨some 1, [("gold", 100)]⟩

/-- A command that always raises `ValueError` (executor witness). -/
def cmdRaise : Command :=
  fun st => (Except.error (PyErr.valueError "insufficient gold"), st)

/-- A starting entity map for the executor witness. -/
def stExec : EMap := [("player_1", ⟨some 1, [("gold", 100)]⟩)]

/-- Lock-wait environment: `a` takes 3 time units, `b` takes 4
(both below a timeout of 5, but together above it). -/
def waitAB : String → Nat :=
  fun s => if s = "a" then 3 else if s = "b" then 4 else 0

/-- Lock-wait environment: `a` is quick, `b` exceeds the timeout. -/
def waitBSlow : String → Nat :=
  fun s => if s = "a" then 1 else if s = "b" then 10 else 0

/-- Saga demo state: an append-only log that records which actions
and compensations ran, in order. -/
abbrev SagaLog := List String

/-- A successful step appending its action tag, with a compensation
appending its compensation tag. -/
def logStep (nm tagA tagC : String) : SagaStep SagaLog :=
  ⟨nm, fun st => (Except.ok 1, st ++ [tagA]),
   some (fun st => (Except.ok (), st ++ [tagC]))⟩

/-- A failing step (raises after logging its action tag). -/
def failStep (nm tagA : String) : SagaStep SagaLog :=
  ⟨nm, fun st => (Except.error "boom", st ++ [tagA]), none⟩

/-- The three-step saga whose third action raises. -/
def sagaSteps : List (SagaStep SagaLog) :=
  [logStep "step1" "a1" "c1", logStep "step2" "a2" "c2", failStep "step3" "a3"]

/-- A scheduled raid (not yet attackable). -/
def raidScheduled : RaidEntity :=
  ⟨1000, 1000, RaidStatus.scheduled, some 100, 0, [], 0⟩

/-- An active raid whose expiry has passed at time 200. -/
def raidStale : RaidEntity :=
  ⟨1000, 600, RaidStatus.active, some 100, 3, [], 400⟩

/-- An active raid far from expiry, at full HP. -/
def raidLive : RaidEntity :=
  ⟨1000, 1000, RaidStatus.active, some 1000000, 3, [], 0⟩

/-- The operation sequence that breaks the single-active-banner
invariant through the empty-string banner id. -/
def bannerCtrOps : List BannerOp :=
  [BannerOp.create "" ["card"], BannerOp.activate "",
   BannerOp.create "b" ["card"], BannerOp.activate "b"]

/-- A well-formed operation sequence (non-empty ids) for the
invariant witness. -/
def bannerOkOps : List BannerOp :=
  [BannerOp.create "std" ["card"], BannerOp.setDefault "std",
   BannerOp.create "flash" ["card"], BannerOp.activate "flash",
   BannerOp.trackPull "flash" "p1" 10, BannerOp.expire "flash"]

/-! # Theorems -/

/-! ## Association-list facts -/

theorem alookup_aset_self {α : Type} (l : List (String × α)) (k : String) (v : α) :
    alookup (aset l k v) k = some v := by
  simp [aset, alookup]

theorem alookup_aset_ne {α : Type} (l : List (String × α)) (k k' : String) (v : α)
    (h : k ≠ k') : alookup (aset l k v) k' = alookup l k' := by
  have h2 : k' ≠ k := Ne.symm h
  simp only [aset, alookup, if_neg h]
  induction l with
  | nil => simp [alookup]
  | cons p rest ih =>
    by_cases hp : p.1 = k
    · have hp' : p.1 ≠ k' := by rw [hp]; exact h
      have hb : (p.1 == k) = true := beq_iff_eq.mpr hp
      simp [alookup, List.filter, hb, hp', h, ih]
    · have hb : (p.1 == k) = false := beq_eq_false_iff_ne.mpr hp
      by_cases hp' : p.1 = k'
      · have hb2 : (k' == k) = false := beq_eq_false_iff_ne.mpr h2
        simp [alookup, List.filter, hb, hb2, hp']
      · simp [alookup, List.filter, hb, hp', ih]

/-! ## C2 — repository save and optimistic locking -/

/-- Claim C2: on an update, `SQLiteRepository.save` succeeds only when
the caller record version equals the stored version; a mismatch fails
with the version-conflict error and leaves the table unchanged; a
matching update stores version caller+1 and writes that version back
into the caller record; a first insert stores the caller version
(defaulted to 1 when the key is absent). -/
theorem sqlite_save_version_contract (db : DB) (entityId : String) (rec : PRec) :
    (alookup db entityId = none →
      SQLiteRepository.save db entityId rec =
        (Except.ok rec,
         aset db entityId ⟨rec.etype.getD "unknown", rec, rec.version.getD 1⟩) ∧
      (alookup (SQLiteRepository.save db entityId rec).2 entityId).map Row.version =
        some (rec.version.getD 1)) ∧
    (∀ row, alookup db entityId = some row →
      (row.version ≠ rec.version.getD 1 →
        SQLiteRepository.save db entityId rec =
          (Except.error ("Optimistic lock failed for " ++ entityId ++
            ": expected version " ++ toString (rec.version.getD 1) ++
            ", but found " ++ toString row.version), db)) ∧
      (row.version = rec.version.getD 1 →
        (SQLiteRepository.save db entityId rec).1 =
          Except.ok { rec with version := some (rec.version.getD 1 + 1) } ∧
        (alookup (SQLiteRepository.save db entityId rec).2 entityId).map Row.version =
          some (rec.version.getD 1 + 1))) := by
  constructor
  · intro hnone
    constructor
    · simp [SQLiteRepository.save, hnone]
    · simp [SQLiteRepository.save, hnone, alookup_aset_self]
  · intro row hsome
    constructor
    · intro hne
      simp [SQLiteRepository.save, hsome, hne]
    · intro heq
      constructor
      · simp [SQLiteRepository.save, hsome, heq]
      · simp [SQLiteRepository.save, hsome, heq, alookup_aset_self]

/-- Witness for C2 at concrete inputs: an in-sync update on `p1`
(version 4 → version 5 stored and written back), a stale caller
(version 9) rejected with the table unchanged, and a fresh insert. -/
theorem sqlite_save_version_contract_witness :
    ((SQLiteRepository.save dbV4 "p1" recV4).1 =
        Except.ok { recV4 with version := some 5 } ∧
      (alookup (SQLiteRepository.save dbV4 "p1" recV4).2 "p1").map Row.version =
        some 5) ∧
    SQLiteRepository.save dbV4 "p1" recV9 =
      (Except.error ("Optimistic lock failed for p1: " ++
        "expected version 9, but found 4"), dbV4) ∧
    (alookup (SQLiteRepository.save dbV4 "p2" recV4).2 "p2").map Row.version =
      some 4 := by
  refine ⟨?_, ?_, ?_⟩
  · have h := (sqlite_save_version_contract dbV4 "p1" recV4).2 rowV4 (by decide)
    exact h.2 (by decide)
  · have h := (sqlite_save_version_contract dbV4 "p1" recV9).2 rowV4 (by decide)
    have h2 := h.1 (by decide)
    exact h2.trans (by decide)
  · have h := (sqlite_save_version_contract dbV4 "p2" recV4).1 (by decide)
    exact h.2

/-! ## C8 — add_referral on two existing players -/

/-- Claim C8 (failing input): `add_referral` on two existing players
where the referred player has no referrer.  The method manually bumps
the referred record `_version` from 1 to 2 before calling `save`, so
the optimistic-lock check inside `save` compares 2 against the stored
version 1 and the call raises a version-conflict `ValueError` instead
of linking the players and returning `True`; the table is unchanged. -/
theorem add_referral_version_conflict :
    SQLiteRepository.add_referral dbReferral "p1" "p2" =
      (Except.error ("Optimistic lock failed for p2: " ++
        "expected version 2, but found 1"), dbReferral) := by
  decide

/-! ## C1 — transaction commit and write-through persistence -/

/-- Claim C1 counterexample: on a write-through store (`auto_flush`
on, repository attached), an entity written through the transaction
working store and committed is *not* in the repository afterwards —
`commit` assigns the snapshot to `_entities` directly and performs no
repository write, so the committed record exists only in memory. -/
theorem transaction_commit_not_persisted :
    Transaction.commit ([] : Rdb) stFresh
        (Transaction.workSetEntity (Transaction.begin stFresh) "player_1" entGold) =
      Except.ok ([], ⟨[("player_1", entGold)], [], true⟩,
        ⟨[("player_1", entGold)], true, false⟩, []) ∧
    alookup ([] : Rdb) "player_1" = none ∧
    alookup [("player_1", entGold)] "player_1" = some entGold := by
  decide

/-- Claim C1 (amended): `Transaction.commit` on an active transaction
atomically replaces the entity map of the store with the snapshot and
performs no repository operation at all — the repository is unchanged
and no call is issued; entities written through the working store
reach the repository only through a later `flush()` or a direct
`set_entity` on the persistent store. -/
theorem transaction_commit_replaces_map_only (repo : Rdb)
    (st : PersistentGameState) (tx : Transaction)
    (hc : tx.committed = false) (hr : tx.rolledBack = false) :
    Transaction.commit repo st tx =
      Except.ok (repo, { st with entities := tx.snapshot },
        { tx with committed := true }, []) := by
  simp [Transaction.commit, hc, hr]

/-- Witness for C1 (amended) on the concrete commit scenario. -/
theorem transaction_commit_replaces_map_only_witness :
    Transaction.commit ([] : Rdb) stFresh
        (Transaction.workSetEntity (Transaction.begin stFresh) "player_1" entGold) =
      Except.ok ([], { stFresh with entities := [("player_1", entGold)] },
        ⟨[("player_1", entGold)], true, false⟩, []) := by
  have h := transaction_commit_replaces_map_only ([] : Rdb) stFresh
    (Transaction.workSetEntity (Transaction.begin stFresh) "player_1" entGold)
    (by decide) (by decide)
  exact h.trans (by decide)

/-! ## C3 — executor error translation and rollback -/

/-- Claim C3: when the command body raises, the transactional executor
returns a failure `CommandResult` (ValueError reported as a validation
error, KeyError as entity-not-found, anything else as an unexpected
error) instead of propagating, and the post-state equals the
pre-state: the writes the command made on the transaction snapshot are
discarded. -/
theorem executor_failure_rolls_back (cmd : Command) (st : EMap) (e : PyErr)
    (h : (cmd st).1 = Except.error e) :
    TransactionalExecutor.execute cmd st =
      (⟨false, none, some (errorText e)⟩, st) ∧
    (TransactionalExecutor.execute cmd st).2 = st ∧
    (TransactionalExecutor.execute cmd st).1.success = false := by
  refine ⟨?_, ?_, ?_⟩ <;> simp [TransactionalExecutor.execute, h]

/-- Witness for C3: a command raising `ValueError` after mutating the
working store; the executor reports a validation error and the state
is untouched. -/
theorem executor_failure_rolls_back_witness :
    TransactionalExecutor.execute cmdRaise stExec =
      (⟨false, none, some "Validation error: insufficient gold"⟩, stExec) := by
  exact (executor_failure_rolls_back cmdRaise stExec
    (PyErr.valueError "insufficient gold") (by decide)).1

/-! ## C5 — cache policy of the persistent store -/

/-- Claim C5 counterexample: an id resolved against the repository as
*absent* is not recorded in `_loaded_entities`, so the very next
per-id get issues another repository call, and `get_entities_bulk`
re-fetches it as well — against the claim that later gets are served
from cache with no repository call and that bulk never re-fetches ids
resolved as absent. -/
theorem persistent_absent_refetch :
    (PersistentGameState.get_entity [] stFresh "x").2.2 = [RepoCall.load "x"] ∧
    (PersistentGameState.get_entity []
        (PersistentGameState.get_entity [] stFresh "x").2.1 "x").2.2 =
      [RepoCall.load "x"] ∧
    (PersistentGameState.get_entities_bulk []
        (PersistentGameState.get_entities_bulk [] stFresh ["x"]).2.1 ["x"]).2.2 =
      [RepoCall.loadBulk ["x"]] := by
  decide

/-- Ids that are cached or marked loaded are never in the missing list
of the bulk first pass. -/
theorem bulkFirstPass_resolved_empty (st : PersistentGameState)
    (ids : List String)
    (h : ∀ id ∈ ids, (alookup st.entities id).isSome ∨ id ∈ st.loaded) :
    (PersistentGameState.bulkFirstPass st ids).2 = [] := by
  induction ids with
  | nil => rfl
  | cons id rest ih =>
    have hid := h id (List.mem_cons_self id rest)
    have hrest := ih (fun i hi => h i (List.mem_cons_of_mem id hi))
    simp only [PersistentGameState.bulkFirstPass]
    cases hlook : alookup st.entities id with
    | some e => simp [hlook, hrest]
    | none =>
      rcases hid with hsome | hmem
      · rw [hlook] at hsome; simp at hsome
      · simp [hlook, hmem, hrest]

/-- Every id in the missing list of the bulk first pass is unresolved:
neither cached in memory nor marked in `_loaded_entities`. -/
theorem bulkFirstPass_missing_unresolved (st : PersistentGameState)
    (ids : List String) :
    ∀ id ∈ (PersistentGameState.bulkFirstPass st ids).2,
      alookup st.entities id = none ∧ id ∉ st.loaded := by
  induction ids with
  | nil => intro id h; simp [PersistentGameState.bulkFirstPass] at h
  | cons e rest ih =>
    intro id h
    simp only [PersistentGameState.bulkFirstPass] at h
    cases hbp : PersistentGameState.bulkFirstPass st rest with
    | mk found missing =>
      rw [hbp] at h
      dsimp only at h
      have ih2 : ∀ i ∈ missing, alookup st.entities i = none ∧ i ∉ st.loaded := by
        intro i hi
        exact ih i (by rw [hbp]; exact hi)
      cases hlook : alookup st.entities e with
      | some v =>
        rw [hlook] at h
        dsimp only at h
        exact ih2 id h
      | none =>
        rw [hlook] at h
        dsimp only at h
        by_cases hnl : e ∈ st.loaded
        · rw [if_neg (not_not_intro hnl)] at h
          exact ih2 id h
        · rw [if_pos hnl] at h
          dsimp only at h
          rcases List.mem_cons.mp h with rfl | hmem
          · exact ⟨hlook, hnl⟩
          · exact ih2 id hmem

/-- The repository calls of `get_entities_bulk`: nothing when the first
pass resolves everything, otherwise exactly one bulk load of the
missing ids. -/
theorem get_entities_bulk_trace (repo : Rdb) (st : PersistentGameState)
    (entityIds : List String) :
    (PersistentGameState.get_entities_bulk repo st entityIds).2.2 =
      (if (PersistentGameState.bulkFirstPass st entityIds).2.isEmpty then []
       else [RepoCall.loadBulk
         (PersistentGameState.bulkFirstPass st entityIds).2]) := by
  unfold PersistentGameState.get_entities_bulk
  cases hbp : PersistentGameState.bulkFirstPass st entityIds with
  | mk found missing =>
    dsimp only
    by_cases hm : missing.isEmpty = true
    · rw [if_pos hm, if_pos hm]
    · rw [if_neg hm, if_neg hm]

/-- Claim C5 (amended): a per-id get of an id resolved as *present*
(cached in memory) is served from cache with no repository call and no
state change; `get_entities_bulk` makes at most one repository
round-trip, requesting exactly the ids of its missing list, and an id
that is cached or marked loaded is never in that list — so in any
bulk request, mixed or not, a resolved-as-present id is never
re-fetched, and a request of only resolved ids makes no repository
call at all; finally, a per-id get that loads a present record caches
it and marks it loaded (one repository call).  Ids resolved as absent
are not marked and are re-fetched (see the counterexample). -/
theorem persistent_cache_policy (repo : Rdb) (st : PersistentGameState) :
    (∀ id e, alookup st.entities id = some e →
       PersistentGameState.get_entity repo st id = (some e, st, [])) ∧
    (∀ ids,
       (∀ id, ((alookup st.entities id).isSome ∨ id ∈ st.loaded) →
          id ∉ (PersistentGameState.bulkFirstPass st ids).2) ∧
       (PersistentGameState.get_entities_bulk repo st ids).2.2 =
         (if (PersistentGameState.bulkFirstPass st ids).2.isEmpty then []
          else [RepoCall.loadBulk
            (PersistentGameState.bulkFirstPass st ids).2]) ∧
       ((∀ id ∈ ids, (alookup st.entities id).isSome ∨ id ∈ st.loaded) →
          (PersistentGameState.get_entities_bulk repo st ids).2.2 = [])) ∧
    (∀ id e, alookup st.entities id = none → id ∉ st.loaded →
       alookup repo id = some e →
       PersistentGameState.get_entity repo st id =
         (some e, ⟨aset st.entities id e, sinsert st.loaded id, st.autoFlush⟩,
          [RepoCall.load id])) := by
  refine ⟨?_, ?_, ?_⟩
  · intro id e h
    simp [PersistentGameState.get_entity, h]
  · intro ids
    refine ⟨?_, get_entities_bulk_trace repo st ids, ?_⟩
    · intro id hres hmem
      obtain ⟨h1, h2⟩ := bulkFirstPass_missing_unresolved st ids id hmem
      rcases hres with hsome | hl
      · rw [h1] at hsome; simp at hsome
      · exact h2 hl
    · intro hall
      have hmiss := bulkFirstPass_resolved_empty st ids hall
      simp [PersistentGameState.get_entities_bulk, hmiss]
  · intro id e hmem hload hrepo
    simp [PersistentGameState.get_entity, hmem, hload, hrepo]

/-- Witness for C5 (amended): a cached id is served with no repository
call; a mixed bulk request over the cached `x` and the fresh `y` does
not place `x` in the missing list and makes its single round-trip for
`y` only; a bulk request of resolved ids alone makes no round-trip;
and a fresh id present in the repository is loaded, cached and marked
in one call. -/
theorem persistent_cache_policy_witness :
    PersistentGameState.get_entity repoX stCached "x" =
      (some ⟨some 1, [("gold", 100)]⟩, stCached, []) ∧
    "x" ∉ (PersistentGameState.bulkFirstPass stCached ["x", "y"]).2 ∧
    (PersistentGameState.get_entities_bulk repoX stCached ["x", "y"]).2.2 =
      [RepoCall.loadBulk ["y"]] ∧
    (PersistentGameState.get_entities_bulk repoX stCached ["x"]).2.2 = [] ∧
    PersistentGameState.get_entity repoX stFresh "x" =
      (some ⟨some 1, [("gold", 100)]⟩,
       ⟨[("x", ⟨some 1, [("gold", 100)]⟩)], ["x"], true⟩,
       [RepoCall.load "x"]) := by
  refine ⟨?_, ?_, ?_, ?_, ?_⟩
  · exact (persistent_cache_policy repoX stCached).1 "x" _ (by decide)
  · exact ((persistent_cache_policy repoX stCached).2.1 ["x", "y"]).1 "x"
      (by decide)
  · have h := ((persistent_cache_policy repoX stCached).2.1 ["x", "y"]).2.1
    exact h.trans (by decide)
  · exact ((persistent_cache_policy repoX stCached).2.1 ["x"]).2.2 (by decide)
  · have h := (persistent_cache_policy repoX stFresh).2.2 "x"
      ⟨some 1, [("gold", 100)]⟩ (by decide) (by decide) (by decide)
    exact h.trans (by decide)

/-! ## C4 — sorted lock acquisition and timeout handling -/

/-- Claim C4 counterexample: the code passes the *full* `timeout` to
every `wait_for`, not the remaining budget — with waits 3 and 4 and a
timeout of 5 the remaining-budget semantics of the claim fails while
the code succeeds.  And when an acquisition times out after at least
one lock was acquired, the generic exception handler re-releases the
already-released locks, so the call surfaces `RuntimeError`, not the
claimed lock-timeout error (locks of the call are indeed all
released). -/
theorem lock_acquire_budget_counterexample :
    EntityLockManager.acquireSpec waitAB ["b", "a"] 5 =
      (Except.error LockErr.timeoutError, []) ∧
    EntityLockManager.acquire waitAB ["b", "a"] 5 =
      (Except.ok ["a", "b"], ["a", "b"]) ∧
    EntityLockManager.acquire waitBSlow ["a", "b"] 5 =
      (Except.error LockErr.runtimeError, []) := by
  decide

/-- When every id fits the (full, per-acquisition) timeout, the loop
acquires everything in order. -/
theorem acquireGo_all_ok (wait : String → Nat) (timeout : Nat) :
    ∀ (l acc : List String), (∀ id ∈ l, wait id ≤ timeout) →
      EntityLockManager.acquireGo wait timeout l acc =
        (Except.ok (acc ++ l), acc ++ l) := by
  intro l
  induction l with
  | nil => intro acc _; simp [EntityLockManager.acquireGo]
  | cons id rest ih =>
    intro acc h
    have hid : wait id ≤ timeout := h id (List.mem_cons_self id rest)
    have hrest := ih (acc ++ [id]) (fun i hi => h i (List.mem_cons_of_mem id hi))
    simp [EntityLockManager.acquireGo, hid, hrest]

/-- When some id exceeds the timeout, the loop fails, holds nothing,
and the surfaced error depends on whether anything had been acquired
before the first failure. -/
theorem acquireGo_fail (wait : String → Nat) (timeout : Nat) :
    ∀ (l acc : List String), (∃ id ∈ l, timeout < wait id) →
      (EntityLockManager.acquireGo wait timeout l acc).2 = [] ∧
      (EntityLockManager.acquireGo wait timeout l acc).1 =
        Except.error
          (if acc ++ l.takeWhile (fun i => decide (wait i ≤ timeout)) = []
           then LockErr.timeoutError else LockErr.runtimeError) := by
  intro l
  induction l with
  | nil => intro acc h; simp at h
  | cons id rest ih =>
    intro acc h
    by_cases hid : wait id ≤ timeout
    · have hex : ∃ i ∈ rest, timeout < wait i := by
        rcases h with ⟨i, hi, hlt⟩
        rcases List.mem_cons.mp hi with rfl | hmem
        · exact absurd hid (Nat.not_le.mpr hlt)
        · exact ⟨i, hmem, hlt⟩
      have hrest := ih (acc ++ [id]) hex
      have htake : (id :: rest).takeWhile (fun i => decide (wait i ≤ timeout)) =
          id :: rest.takeWhile (fun i => decide (wait i ≤ timeout)) := by
        simp [List.takeWhile, hid]
      constructor
      · simpa [EntityLockManager.acquireGo, hid] using hrest.1
      · have h2 := hrest.2
        rw [htake]
        have happ : (acc ++ [id]) ++
            rest.takeWhile (fun i => decide (wait i ≤ timeout)) =
            acc ++ id :: rest.takeWhile (fun i => decide (wait i ≤ timeout)) := by
          simp
        rw [happ] at h2
        simpa [EntityLockManager.acquireGo, hid] using h2
    · have htake : (id :: rest).takeWhile (fun i => decide (wait i ≤ timeout)) =
          [] := by
        simp [List.takeWhile, hid]
      rw [htake]
      cases acc with
      | nil => simp [EntityLockManager.acquireGo, hid]
      | cons a as => simp [EntityLockManager.acquireGo, hid]

/-- Claim C4 (amended): `acquire` sorts the ids lexicographically and
acquires each mutex in that sorted order, but each acquisition uses
the *full* timeout parameter rather than the remaining budget.  If
every acquisition fits, the sorted list is acquired and held.  If any
times out, no lock of the call remains held and the call fails — with
the lock-timeout error precisely when nothing had been acquired yet,
and otherwise with the runtime error raised by the duplicated release
in the outer exception handler. -/
theorem lock_acquire_full_timeout_contract (wait : String → Nat)
    (entityIds : List String) (timeout : Nat) :
    List.Sorted (fun a b : String => a.data ≤ b.data)
      (EntityLockManager.sortIds entityIds) ∧
    (EntityLockManager.sortIds entityIds).Perm entityIds ∧
    ((∀ id ∈ entityIds, wait id ≤ timeout) →
      EntityLockManager.acquire wait entityIds timeout =
        (Except.ok (EntityLockManager.sortIds entityIds),
         EntityLockManager.sortIds entityIds)) ∧
    ((∃ id ∈ entityIds, timeout < wait id) →
      (EntityLockManager.acquire wait entityIds timeout).2 = [] ∧
      (EntityLockManager.acquire wait entityIds timeout).1 =
        Except.error
          (if (EntityLockManager.sortIds entityIds).takeWhile
                (fun i => decide (wait i ≤ timeout)) = []
           then LockErr.timeoutError else LockErr.runtimeError)) := by
  have hperm : (EntityLockManager.sortIds entityIds).Perm entityIds :=
    List.perm_insertionSort (fun a b : String => a.data ≤ b.data) entityIds
  refine ⟨List.sorted_insertionSort (fun a b : String => a.data ≤ b.data)
    entityIds, hperm, ?_, ?_⟩
  · intro h
    have h2 : ∀ id ∈ EntityLockManager.sortIds entityIds, wait id ≤ timeout :=
      fun id hid => h id (hperm.mem_iff.mp hid)
    have := acquireGo_all_ok wait timeout (EntityLockManager.sortIds entityIds) [] h2
    simpa [EntityLockManager.acquire] using this
  · intro h
    have h2 : ∃ id ∈ EntityLockManager.sortIds entityIds, timeout < wait id := by
      rcases h with ⟨i, hi, hlt⟩
      exact ⟨i, hperm.mem_iff.mpr hi, hlt⟩
    have := acquireGo_fail wait timeout (EntityLockManager.sortIds entityIds) [] h2
    simpa [EntityLockManager.acquire] using this

/-- Witness for C4 (amended): with waits 3 and 4 and timeout 10 both
locks are acquired in sorted order; with a slow second lock and
timeout 5 nothing stays held and the runtime error surfaces. -/
theorem lock_acquire_full_timeout_contract_witness :
    EntityLockManager.acquire waitAB ["b", "a"] 10 =
      (Except.ok ["a", "b"], ["a", "b"]) ∧
    ((EntityLockManager.acquire waitBSlow ["a", "b"] 5).2 = [] ∧
     (EntityLockManager.acquire waitBSlow ["a", "b"] 5).1 =
       Except.error LockErr.runtimeError) := by
  constructor
  · have h := (lock_acquire_full_timeout_contract waitAB ["b", "a"] 10).2.2.1
      (by decide)
    exact h.trans (by decide)
  · have h := (lock_acquire_full_timeout_contract waitBSlow ["a", "b"] 5).2.2.2
      ⟨"b", by decide, by decide⟩
    exact ⟨h.1, h.2.trans (by decide)⟩

/-! ## C6 — saga compensation and the result construction -/

/-- Claim C6 (code bug, failing input): a three-step saga whose third
action raises.  The compensation machinery behaves exactly as claimed
— the compensations of the executed steps run in reverse order (the
log records `c2` before `c1`) and the context ends failed with the
per-step results — but the saga then builds its result record with
`CommandResult(success=..., message=..., metadata=...)` although the
`CommandResult` dataclass has only the fields `success`, `data`,
`error`, so the construction raises `TypeError`, which propagates to
the caller instead of the claimed failure result (the success path
constructs with the same keywords and raises too). -/
theorem saga_result_construction_type_error :
    Saga.execute "fusion" sagaSteps ([] : SagaLog) =
      (Except.error "TypeError: unexpected keyword argument message",
       ["a1", "a2", "a3", "c2", "c1"],
       ⟨"fusion", SagaStatus.failed, ["step1", "step2"], some "step3",
        some "boom", [("step1", 1), ("step2", 1)]⟩) := by
  decide

/-! ## C7 — attack gating by raid status and expiry -/

/-- Claim C7: `attack_raid` on a raid whose status is not active fails
with an explicit reason and leaves the raid record unchanged; on an
active raid whose expiry lies in the past it marks the raid expired,
saves it, and fails — in both cases the failure result carries the
dataclass defaults (zero damage dealt). -/
theorem attack_raid_gating (now : Int) (raid : RaidEntity)
    (playerId : String) (damage : Int) :
    (raid.status ≠ RaidStatus.active →
      RaidService.attack_raid now raid playerId damage =
        (AttackResult.failure
          ("Raid is not active (status: " ++ raid.status.value ++ ")"), raid)) ∧
    (raid.status = RaidStatus.active → pastExpiry now raid.expiresAt = true →
      RaidService.attack_raid now raid playerId damage =
        (AttackResult.failure "Raid has expired",
         { raid with status := RaidStatus.expired })) := by
  constructor
  · intro h
    simp [RaidService.attack_raid, h]
  · intro hact hexp
    simp [RaidService.attack_raid, hact, hexp]

/-- Witness for C7: an attack on a scheduled raid fails and changes
nothing; an attack on an active raid past its expiry (time 200,
expiry 100) marks it expired and fails. -/
theorem attack_raid_gating_witness :
    RaidService.attack_raid 200 raidScheduled "p1" 50 =
      (AttackResult.failure "Raid is not active (status: scheduled)",
       raidScheduled) ∧
    RaidService.attack_raid 200 raidStale "p1" 50 =
      (AttackResult.failure "Raid has expired",
       { raidStale with status := RaidStatus.expired }) := by
  constructor
  · have h := (attack_raid_gating 200 raidScheduled "p1" 50).1 (by decide)
    exact h.trans (by decide)
  · exact (attack_raid_gating 200 raidStale "p1" 50).2 (by decide) (by decide)

/-! ## C10 — negative requested damage heals the raid -/

/-- Claim C10: `attack_raid` never validates the requested damage.
On an active, unexpired raid with non-negative HP, a request `d < 0`
returns a *success* result with `damage_dealt = d`, raises the HP by
`-d` (`min d hp = d`), and adds `d` to the total damage and to the
attacker contribution; the bounds `0 ≤ hp`, `hp ≤ max_hp`,
`0 ≤ damage_dealt` hold only under the unstated precondition
`0 ≤ d`. -/
theorem attack_raid_negative_damage (now : Int) (raid : RaidEntity)
    (playerId : String) (damage : Int)
    (hact : raid.status = RaidStatus.active)
    (hexp : pastExpiry now raid.expiresAt = false)
    (hhp : 0 ≤ raid.currentHp) :
    (damage < 0 →
      (RaidService.attack_raid now raid playerId damage).1.success = true ∧
      (RaidService.attack_raid now raid playerId damage).1.damageDealt = damage ∧
      (RaidService.attack_raid now raid playerId damage).2.currentHp =
        raid.currentHp - damage ∧
      (RaidService.attack_raid now raid playerId damage).2.totalDamageDealt =
        raid.totalDamageDealt + damage ∧
      alookup (RaidService.attack_raid now raid playerId damage).2.participants
          playerId =
        some ⟨((alookup raid.participants playerId).getD ⟨0, 0⟩).totalDamage +
                damage,
              ((alookup raid.participants playerId).getD ⟨0, 0⟩).attackCount + 1⟩) ∧
    (0 ≤ damage → raid.currentHp ≤ raid.maxHp →
      0 ≤ (RaidService.attack_raid now raid playerId damage).2.currentHp ∧
      (RaidService.attack_raid now raid playerId damage).2.currentHp ≤
        raid.maxHp ∧
      0 ≤ (RaidService.attack_raid now raid playerId damage).1.damageDealt) := by
  have hne : ¬ raid.status ≠ RaidStatus.active := by simp [hact]
  constructor
  · intro hneg
    have hmin : min damage raid.currentHp = damage :=
      min_eq_left (le_trans (le_of_lt hneg) hhp)
    refine ⟨?_, ?_, ?_, ?_, ?_⟩ <;>
      simp [RaidService.attack_raid, hne, hexp, hmin, alookup_aset_self]
  · intro hpos hmax
    have hmin1 : min damage raid.currentHp ≤ raid.currentHp := min_le_right _ _
    have hmin0 : 0 ≤ min damage raid.currentHp := le_min hpos hhp
    refine ⟨?_, ?_, ?_⟩ <;>
      simp [RaidService.attack_raid, hne, hexp] <;> omega

/-- Witness for C10 at the full-HP live raid: requesting damage −5
succeeds, reports −5 damage dealt, and pushes the HP to 1005, above
the maximum of 1000. -/
theorem attack_raid_negative_damage_witness :
    (RaidService.attack_raid 0 raidLive "p1" (-5)).1.success = true ∧
    (RaidService.attack_raid 0 raidLive "p1" (-5)).1.damageDealt = -5 ∧
    (RaidService.attack_raid 0 raidLive "p1" (-5)).2.currentHp = 1005 ∧
    (RaidService.attack_raid 0 raidLive "p1" (-5)).2.currentHp >
      raidLive.maxHp := by
  have h := (attack_raid_negative_damage 0 raidLive "p1" (-5)
    (by decide) (by decide) (by decide)).1 (by decide)
  refine ⟨h.1, h.2.1, ?_, ?_⟩
  · exact h.2.2.1.trans (by decide)
  · rw [h.2.2.1]; decide

/-! ## C9 — at most one active banner -/

/-- Claim C9 counterexample: the deactivation guard in
`activate_banner` tests `if self._active_banner_id and ...`, and the
empty string is falsy in Python — so after registering and activating
a banner with the empty id, activating any other banner skips the
deactivation and two banners are active at once. -/
theorem banner_two_active :
    ¬ AtMostOneActive (BannerManager.runOps bannerCtrOps) := by
  intro h
  have hempty : (BannerManager.runOps bannerCtrOps).banners "" =
      some ⟨BannerStatus.active, ["card"], 0, []⟩ := by decide
  have hb : (BannerManager.runOps bannerCtrOps).banners "b" =
      some ⟨BannerStatus.active, ["card"], 0, []⟩ := by decide
  have := h "" "b" _ _ hempty hb rfl rfl
  exact absurd this (by decide)

theorem bset_eval_self (m : String → Option Banner) (bannerId : String)
    (b : Banner) : bset m bannerId b bannerId = some b := by
  simp [bset]

theorem bset_eval_ne (m : String → Option Banner) (bannerId : String)
    (b : Banner) (j : String) (h : j ≠ bannerId) :
    bset m bannerId b j = m j := by
  simp [bset, h]

theorem goodMgr_init : GoodMgr BannerManager.init := by
  refine ⟨?_, ?_, ?_⟩ <;> intro _ <;> intros <;> simp_all [BannerManager.init]

theorem goodMgr_atMostOneActive (m : BannerManager) (h : GoodMgr m) :
    AtMostOneActive m := by
  intro i j bi bj hi hj hacti hactj
  have h1 := h.1 i bi hi hacti
  have h2 := h.1 j bj hj hactj
  rw [h1] at h2
  exact Option.some.inj h2

theorem goodMgr_create (m : BannerManager) (bannerId : String)
    (pool : List String) (h : GoodMgr m) :
    GoodMgr (m.create_banner bannerId pool) := by
  obtain ⟨h1, h2, h3⟩ := h
  unfold BannerManager.create_banner
  by_cases hex : (m.banners bannerId).isSome = true
  · rw [if_pos hex]; exact ⟨h1, h2, h3⟩
  · rw [if_neg hex]
    by_cases hpool : pool.isEmpty = true
    · rw [if_pos hpool]; exact ⟨h1, h2, h3⟩
    · rw [if_neg hpool]
      refine ⟨?_, h2, h3⟩
      intro i b hlook hact
      dsimp only at hlook ⊢
      by_cases hi : i = bannerId
      · subst hi
        rw [bset_eval_self] at hlook
        cases hlook
        cases hact
      · rw [bset_eval_ne _ _ _ _ hi] at hlook
        exact h1 i b hlook hact

theorem goodMgr_activate (m : BannerManager) (bannerId : String)
    (h : GoodMgr m) (hid : bannerId ≠ "") :
    GoodMgr (m.activate_banner bannerId) := by
  obtain ⟨h1, h2, h3⟩ := h
  unfold BannerManager.activate_banner
  cases hb : m.banners bannerId with
  | none => exact ⟨h1, h2, h3⟩
  | some banner =>
    dsimp only
    by_cases hexp : banner.status = BannerStatus.expired
    · rw [if_pos hexp]; exact ⟨h1, h2, h3⟩
    · rw [if_neg hexp]
      cases hA : m.activeBannerId with
      | none =>
        refine ⟨?_, ?_, h3⟩
        · intro i b hlook hact
          dsimp only at hlook ⊢
          by_cases hi : i = bannerId
          · rw [hi]
          · rw [bset_eval_ne _ _ _ _ hi] at hlook
            have hcontra := h1 i b hlook hact
            rw [hA] at hcontra
            cases hcontra
        · intro s hs
          dsimp only at hs
          cases hs
          exact hid
      | some oldId =>
        dsimp only
        have hold : oldId ≠ "" := h2 oldId hA
        have holdT : isTruthyId (some oldId) = true := by
          simp [isTruthyId, hold]
        by_cases heq : oldId = bannerId
        · have hneg : ¬ ((isTruthyId (some oldId) && !(oldId == bannerId)) = true) := by
            simp [heq]
          rw [if_neg hneg]
          refine ⟨?_, ?_, h3⟩
          · intro i b hlook hact
            dsimp only at hlook ⊢
            by_cases hi : i = bannerId
            · rw [hi]
            · rw [bset_eval_ne _ _ _ _ hi] at hlook
              have hcontra := h1 i b hlook hact
              rw [hA] at hcontra
              have hio : oldId = i := Option.some.inj hcontra
              exact absurd (hio.symm.trans heq) hi
          · intro s hs
            dsimp only at hs
            cases hs
            exact hid
        · have hguard : (isTruthyId (some oldId) && !(oldId == bannerId)) = true := by
            simp [holdT, heq]
          rw [if_pos hguard]
          cases hob : m.banners oldId with
          | none =>
            dsimp only
            refine ⟨?_, ?_, h3⟩
            · intro i b hlook hact
              dsimp only at hlook ⊢
              by_cases hi : i = bannerId
              · rw [hi]
              · rw [bset_eval_ne _ _ _ _ hi] at hlook
                have hcontra := h1 i b hlook hact
                rw [hA] at hcontra
                have hio : oldId = i := Option.some.inj hcontra
                rw [← hio, hob] at hlook
                cases hlook
            · intro s hs
              dsimp only at hs
              cases hs
              exact hid
          | some oldBanner =>
            dsimp only
            by_cases hobact : oldBanner.status = BannerStatus.active
            · rw [if_pos hobact]
              refine ⟨?_, ?_, h3⟩
              · intro i b hlook hact
                dsimp only at hlook ⊢
                by_cases hi : i = bannerId
                · rw [hi]
                · rw [bset_eval_ne _ _ _ _ hi] at hlook
                  by_cases hio : i = oldId
                  · subst hio
                    rw [bset_eval_self] at hlook
                    cases hlook
                    cases hact
                  · rw [bset_eval_ne _ _ _ _ hio] at hlook
                    have hcontra := h1 i b hlook hact
                    rw [hA] at hcontra
                    exact absurd (Option.some.inj hcontra).symm hio
              · intro s hs
                dsimp only at hs
                cases hs
                exact hid
            · rw [if_neg hobact]
              refine ⟨?_, ?_, h3⟩
              · intro i b hlook hact
                dsimp only at hlook ⊢
                by_cases hi : i = bannerId
                · rw [hi]
                · rw [bset_eval_ne _ _ _ _ hi] at hlook
                  have hcontra := h1 i b hlook hact
                  rw [hA] at hcontra
                  have hio : oldId = i := Option.some.inj hcontra
                  rw [← hio, hob] at hlook
                  injection hlook with hbb
                  rw [← hbb] at hact
                  exact absurd hact hobact
              · intro s hs
                dsimp only at hs
                cases hs
                exact hid

theorem goodMgr_expire (m : BannerManager) (bannerId : String)
    (h : GoodMgr m) : GoodMgr (m.expire_banner bannerId) := by
  obtain ⟨h1, h2, h3⟩ := h
  unfold BannerManager.expire_banner
  cases hb : m.banners bannerId with
  | none => exact ⟨h1, h2, h3⟩
  | some banner =>
    have hnoact : ∀ i b,
        bset m.banners bannerId { banner with status := BannerStatus.expired } i =
          some b → b.status = BannerStatus.active →
        m.activeBannerId = some i ∧ i ≠ bannerId := by
      intro i b hlook hact
      by_cases hi : i = bannerId
      · subst hi
        rw [bset_eval_self] at hlook
        cases hlook
        cases hact
      · rw [bset_eval_ne _ _ _ _ hi] at hlook
        exact ⟨h1 i b hlook hact, hi⟩
    by_cases hA : m.activeBannerId = some bannerId
    · dsimp only
      rw [if_pos hA]
      by_cases hguard :
          (isTruthyId m.defaultBannerId && !(m.defaultBannerId == some bannerId)) = true
      · rw [if_pos hguard]
        cases hD : m.defaultBannerId with
        | none => rw [hD] at hguard; simp [isTruthyId] at hguard
        | some defaultId =>
          have hdne : defaultId ≠ "" := h3 defaultId hD
          dsimp only
          cases hdb : bset m.banners bannerId
              { banner with status := BannerStatus.expired } defaultId with
          | none =>
            dsimp only
            refine ⟨?_, ?_, ?_⟩
            · intro i b hlook hact
              dsimp only at hlook ⊢
              have hcontra := hnoact i b hlook hact
              rw [hA] at hcontra
              exact absurd (Option.some.inj hcontra.1).symm hcontra.2
            · intro s hs
              dsimp only at hs
              cases hs
              exact hdne
            · intro s hs
              dsimp only at hs
              cases hs
              exact hdne
          | some defaultBanner =>
            dsimp only
            refine ⟨?_, ?_, ?_⟩
            · intro i b hlook hact
              dsimp only at hlook ⊢
              by_cases hi : i = defaultId
              · rw [hi]
              · rw [bset_eval_ne _ _ _ _ hi] at hlook
                have hcontra := hnoact i b hlook hact
                rw [hA] at hcontra
                exact absurd (Option.some.inj hcontra.1).symm hcontra.2
            · intro s hs
              dsimp only at hs
              cases hs
              exact hdne
            · intro s hs
              dsimp only at hs
              cases hs
              exact hdne
      · rw [if_neg hguard]
        refine ⟨?_, ?_, h3⟩
        · intro i b hlook hact
          dsimp only at hlook ⊢
          have hcontra := hnoact i b hlook hact
          rw [hA] at hcontra
          exact absurd (Option.some.inj hcontra.1).symm hcontra.2
        · intro s hs
          dsimp only at hs
          cases hs
    · dsimp only
      rw [if_neg hA]
      refine ⟨?_, h2, h3⟩
      intro i b hlook hact
      dsimp only at hlook ⊢
      exact (hnoact i b hlook hact).1

theorem goodMgr_setDefault (m : BannerManager) (bannerId : String)
    (h : GoodMgr m) (hid : bannerId ≠ "") :
    GoodMgr (m.set_default_banner bannerId) := by
  obtain ⟨h1, h2, h3⟩ := h
  unfold BannerManager.set_default_banner
  cases hb : m.banners bannerId with
  | none => exact ⟨h1, h2, h3⟩
  | some banner =>
    dsimp only
    have hmid : GoodMgr ⟨m.banners, m.activeBannerId, some bannerId⟩ := by
      refine ⟨h1, h2, ?_⟩
      intro s hs
      cases hs
      exact hid
    by_cases hA : m.activeBannerId = none
    · rw [if_pos (by rw [hA])]
      exact goodMgr_activate ⟨m.banners, m.activeBannerId, some bannerId⟩
        bannerId hmid hid
    · rw [if_neg (by exact hA)]
      exact hmid

theorem goodMgr_trackPull (m : BannerManager) (bannerId playerId : String)
    (n : Nat) (h : GoodMgr m) : GoodMgr (m.track_pull bannerId playerId n) := by
  obtain ⟨h1, h2, h3⟩ := h
  unfold BannerManager.track_pull
  cases hb : m.banners bannerId with
  | none => exact ⟨h1, h2, h3⟩
  | some banner =>
    dsimp only
    refine ⟨?_, h2, h3⟩
    intro i b hlook hact
    dsimp only at hlook ⊢
    by_cases hi : i = bannerId
    · subst hi
      rw [bset_eval_self] at hlook
      injection hlook with hbb
      rw [← hbb] at hact
      exact h1 i banner hb hact
    · rw [bset_eval_ne _ _ _ _ hi] at hlook
      exact h1 i b hlook hact

theorem goodMgr_applyOp (m : BannerManager) (op : BannerOp)
    (h : GoodMgr m) (hid : op.bannerId ≠ "") :
    GoodMgr (m.applyOp op) := by
  cases op with
  | create i pool => exact goodMgr_create m i pool h
  | createFlash i pool => exact goodMgr_create m i pool h
  | activate i => exact goodMgr_activate m i h hid
  | expire i => exact goodMgr_expire m i h
  | setDefault i => exact goodMgr_setDefault m i h hid
  | trackPull i p n => exact goodMgr_trackPull m i p n h

theorem goodMgr_foldl (ops : List BannerOp) :
    ∀ (m : BannerManager), GoodMgr m →
      (∀ op ∈ ops, op.bannerId ≠ "") →
      GoodMgr (ops.foldl BannerManager.applyOp m) := by
  induction ops with
  | nil => intro m hm _; exact hm
  | cons op rest ih =>
    intro m hm hids
    have hop := hids op (List.mem_cons_self op rest)
    have hrest := fun o ho => hids o (List.mem_cons_of_mem op ho)
    exact ih (m.applyOp op) (goodMgr_applyOp m op hm hop) hrest

/-- Claim C9 (amended): starting from the empty manager, every
sequence of the lifecycle operations in which no operation uses the
empty string as banner id preserves the invariant that at most one
registered banner has status active — including the expire path that
falls back to the configured default banner.  (With the empty id the
Python truthiness guards skip the deactivation and the invariant
fails; see the counterexample.) -/
theorem banner_at_most_one_active (ops : List BannerOp)
    (h : ∀ op ∈ ops, op.bannerId ≠ "") :
    AtMostOneActive (BannerManager.runOps ops) :=
  goodMgr_atMostOneActive _ (goodMgr_foldl ops BannerManager.init goodMgr_init h)

/-- Witness for C9 (amended) on a concrete six-operation scenario
(create a default, a flash banner, pulls, expiry with fallback). -/
theorem banner_at_most_one_active_witness :
    AtMostOneActive (BannerManager.runOps bannerOkOps) :=
  banner_at_most_one_active bannerOkOps (by decide)

end Engine
